import Mathlib

/-!
Shallow embedding of the BLACS plugin subsystem (`plugins/__init__.py`):
the `Callback` wrapper class, the module-level callback dispatcher
`get_callbacks`, and the plugin-module discovery loop, together with
theorems about the specified behaviour.
-/

namespace BlacsPlugins

/-- `DEFAULT_PRIORITY = 10` from the source. -/
def DEFAULT_PRIORITY : Int := 10

/-- `default_plugins = ['connection_table', 'general', 'theme']` from the source. -/
def default_plugins : List String := ["connection_table", "general", "theme"]

/-! ## The callback values handled by the dispatcher

A value stored under an event name in a plugin's callbacks dict is either a
`Callback` wrapper object, which carries an explicit `priority` attribute, or
a bare callable, which has no `priority` attribute.  For the dispatcher only
the priority attribute and the identity of the value matter, so the value is
modelled by that data; `fid` is the identity of the underlying callable. -/

inductive CallbackValue where
  | wrapped (priority : Int) (fid : Nat)
  | bare (fid : Nat)
deriving DecidableEq, Repr

/-- `getattr(callback, 'priority', DEFAULT_PRIORITY)`: the sort key used by
the dispatcher (source line 181). -/
def priorityOf : CallbackValue → Int
  | .wrapped p _ => p
  | .bare _ => DEFAULT_PRIORITY

/-- The boolean comparison on the sort key.  `list.sort(key=...)` in Python is
a stable sort by the key under `≤`. -/
def priorityLE (a b : CallbackValue) : Bool :=
  decide (priorityOf a ≤ priorityOf b)

/-- Outcome of calling one plugin's `get_callbacks()` method inside the
dispatcher's `try` block: it may raise, return `None`, or return a dict
mapping event names to callback values (modelled as an association list). -/
inductive PluginCallbacks where
  | raises
  | retNone
  | retMapping (m : List (String × CallbackValue))
deriving DecidableEq

/-- A registered plugin as seen by the dispatcher: `reprStr` is `str(plugin)`
(used in the log message), `callbacks` is the behaviour of its
`get_callbacks()` method. -/
structure Plugin where
  reprStr : String
  callbacks : PluginCallbacks
deriving DecidableEq

/-- One iteration of the dispatcher's loop body (source lines 172-178): the
callbacks appended for this plugin, and the log messages emitted.  A raising
plugin contributes no callbacks and one `logger.exception` message; a plugin
returning `None` fails the `is not None` test and contributes nothing; a
returned dict contributes its entry for `name` when present. -/
def dispatchStep (name : String) (p : Plugin) : List CallbackValue × List String :=
  match p.callbacks with
  | .raises => ([], ["Error getting callbacks from " ++ p.reprStr ++ "."])
  | .retNone => ([], [])
  | .retMapping m =>
    match m.lookup name with
    | some cb => ([cb], [])
    | none => ([], [])

/-- The dispatcher's accumulation loop over `BLACS.plugins.values()`: the
accumulated `callbacks` list (in plugin visit order) paired with the emitted
log messages. -/
def collectWithLog (name : String) : List Plugin → List CallbackValue × List String
  | [] => ([], [])
  | p :: rest =>
    ((dispatchStep name p).1 ++ (collectWithLog name rest).1,
     (dispatchStep name p).2 ++ (collectWithLog name rest).2)

/-- The accumulator list of the dispatcher before sorting. -/
def collectCallbacks (name : String) (plugins : List Plugin) : List CallbackValue :=
  (collectWithLog name plugins).1

/-- The module-level dispatcher `get_callbacks(name)` (source lines 166-182):
accumulate the callbacks registered under `name` across all plugins, then
stable-sort by `getattr(callback, 'priority', DEFAULT_PRIORITY)`. -/
def get_callbacks (name : String) (plugins : List Plugin) : List CallbackValue :=
  (collectCallbacks name plugins).mergeSort priorityLE

/-! ## The `Callback` wrapper class (source lines 133-151)

`α` is the type of the full Python argument tuple of a call, `β` the return
type.  For binding, the argument tuple is split as `ι × α`: the owning
instance followed by the remaining arguments. -/

structure Callback (α β : Type) where
  priority : Int
  func : α → β

/-- `Callback(func)`: construction with the `priority` argument left at its
default `DEFAULT_PRIORITY`. -/
def Callback.ofCallable {α β : Type} (f : α → β) : Callback α β :=
  ⟨DEFAULT_PRIORITY, f⟩

/-- `Callback.__call__(self, *args, **kwargs)` returns
`self.func(*args, **kwargs)`. -/
def Callback.dunderCall {α β : Type} (cb : Callback α β) (a : α) : β :=
  cb.func a

/-- `types.MethodType(f, instance)`: the bound method that, when called with
the remaining arguments, calls `f` with the instance prepended. -/
def MethodType {ι α β : Type} (f : ι × α → β) (inst : ι) : α → β :=
  fun a => f (inst, a)

/-- Result of the descriptor protocol `__get__`: accessed on the class
(`instance is None`) it returns the wrapper itself; accessed on an instance
it returns a bound callable. -/
inductive BoundResult (ι α β : Type) where
  | unbound (cb : Callback (ι × α) β)
  | bound (f : α → β)

/-- `Callback.__get__(self, instance, class_)` (source lines 142-148):
`MethodType(self, instance)` when `instance` is not `None`, else `self`. -/
def Callback.dunderGet {ι α β : Type} (cb : Callback (ι × α) β) (inst : Option ι) :
    BoundResult ι α β :=
  match inst with
  | none => .unbound cb
  | some i => .bound (MethodType cb.dunderCall i)

/-- How Python binds an ordinary function defined in a class body when it is
accessed through an instance: calling the bound method passes the instance as
the function's first argument. -/
def ordinaryMethodBind {ι α β : Type} (f : ι × α → β) (inst : ι) : α → β :=
  fun a => f (inst, a)

/-! ## The persistent configuration store

The store (`LabConfig`) is an external collaborator: a key-value store
organised into named sections, supporting `has_section`, `add_section`,
`items`, `getboolean` and `set`.  It is modelled as an association list of
sections, each an association list of string keys to string values. -/

/-- One configuration section: keys mapped to string values. -/
abbrev CfgSection := List (String × String)

/-- The configuration store: named sections. -/
abbrev Config := List (String × CfgSection)

/-- `config.has_section(s)`. -/
def has_section (cfg : Config) (s : String) : Bool :=
  (cfg.lookup s).isSome

/-- `config.add_section(s)`: add an empty section named `s`. -/
def add_section (cfg : Config) (s : String) : Config :=
  cfg ++ [(s, [])]

/-- `config.items(s)`: the key-value pairs of section `s`. -/
def cfgItems (cfg : Config) (s : String) : List (String × String) :=
  (cfg.lookup s).getD []

/-- Set key `k` to value `v` inside one section: overwrite in place when the
key exists, append otherwise. -/
def setInSection (sec : CfgSection) (k v : String) : CfgSection :=
  match sec with
  | [] => [(k, v)]
  | (k', v') :: rest =>
    if k' = k then (k, v) :: rest else (k', v') :: setInSection rest k v

/-- `config.set(s, k, v)`: update key `k` of section `s`; a missing section
is created at the end of the store. -/
def cfgSet (cfg : Config) (s k v : String) : Config :=
  match cfg with
  | [] => [(s, [(k, v)])]
  | (s', sec) :: rest =>
    if s' = s then (s', setInSection sec k v) :: rest
    else (s', sec) :: cfgSet rest s k v

/-- ASCII lower-casing of one character (as `value.lower()` does on the
basic latin letters appearing in stored boolean values). -/
def lowerChar (c : Char) : Char :=
  if 65 ≤ c.toNat ∧ c.toNat ≤ 90 then Char.ofNat (c.toNat + 32) else c

/-- ASCII lower-casing of a string, structurally over its characters. -/
def lowerStr (s : String) : String :=
  ⟨s.data.map lowerChar⟩

/-- Parsing of a stored boolean string, after `configparser`'s
`BOOLEAN_STATES` lookup on the lower-cased value; `none` models the
`ValueError` raised on any other value. -/
def parseBoolStr (v : String) : Option Bool :=
  if lowerStr v ∈ ["1", "yes", "true", "on"] then some true
  else if lowerStr v ∈ ["0", "no", "false", "off"] then some false
  else none

/-- `config.getboolean(s, k)`: parse the stored value of key `k` in section
`s`; `none` models the exception raised when the key is missing or the value
does not parse. -/
def getboolean (cfg : Config) (s k : String) : Option Bool :=
  ((cfgItems cfg s).lookup k).bind parseBoolStr

/-- `str(b)` for a Python bool: the value the discovery loop writes. -/
def pyStr (b : Bool) : String :=
  if b then "True" else "False"

/-! ## The module discovery loop (source lines 185-204) -/

/-- One entry of `os.listdir(PLUGINS_DIR)` together with the result of the
`os.path.isdir` test on it. -/
structure DirEntry where
  name : String
  isDir : Bool
deriving DecidableEq

/-- The mutable state of the discovery loop: the configuration store, the
`modules` dict (an insertion-ordered association list, as a Python dict is),
and the messages sent to the logger. -/
structure DiscoveryState (μ : Type) where
  config : Config
  modules : List (String × μ)
  log : List String
deriving DecidableEq

/-- Python dict assignment `d[k] = v`: overwrite in place when the key
exists, append otherwise. -/
def dictInsert {μ : Type} (d : List (String × μ)) (k : String) (v : μ) :
    List (String × μ) :=
  match d with
  | [] => [(k, v)]
  | (k', v') :: rest =>
    if k' = k then (k, v) :: rest else (k', v') :: dictInsert rest k v

/-- The registration step for one candidate (source lines 192-195): when the
module name is not yet a key of the `BLACS/plugins` section, write it with
`str(module_name in default_plugins)`; otherwise leave the store unchanged. -/
def registeredConfig (cfg : Config) (m : String) : Config :=
  if ((cfgItems cfg "BLACS/plugins").map Prod.fst).contains m then cfg
  else cfgSet cfg "BLACS/plugins" m (pyStr (default_plugins.contains m))

/-- One iteration of the discovery loop (source lines 190-204) over a listing
entry.  Entries that are not directories, or are `__pycache__`, are skipped.
Otherwise the candidate is registered in the config when new, and imported
when its persisted boolean is true; `imp` is the import environment
(`none` = `importlib.import_module` raises, which is caught and logged).  An
unparseable stored boolean makes `getboolean` raise, which nothing catches:
that is the `Except.error` case. -/
def processModule {μ : Type} (imp : String → Option μ) (st : DiscoveryState μ)
    (e : DirEntry) : Except String (DiscoveryState μ) :=
  if e.isDir && e.name != "__pycache__" then
    let cfg := registeredConfig st.config e.name
    match getboolean cfg "BLACS/plugins" e.name with
    | none => .error e.name
    | some false => .ok ⟨cfg, st.modules, st.log⟩
    | some true =>
      match imp e.name with
      | none =>
        .ok ⟨cfg, st.modules,
          st.log ++ ["Could not import plugin \x27" ++ e.name ++ "\x27. Skipping."]⟩
      | some m => .ok ⟨cfg, dictInsert st.modules e.name m, st.log⟩
  else .ok st

/-- The discovery loop over the whole directory listing: one `processModule`
step per entry, threading the state; an uncaught exception in a step aborts
the loop. -/
def runDiscovery {μ : Type} (imp : String → Option μ) :
    DiscoveryState μ → List DirEntry → Except String (DiscoveryState μ)
  | st, [] => .ok st
  | st, e :: rest =>
    match processModule imp st e with
    | .error msg => .error msg
    | .ok st' => runDiscovery imp st' rest

/-- The whole discovery pass (source lines 185-204): ensure the
`BLACS/plugins` section exists, then run the loop body over the directory
listing, starting from an empty `modules` dict. -/
def loadPlugins {μ : Type} (imp : String → Option μ) (cfg0 : Config)
    (listing : List DirEntry) : Except String (DiscoveryState μ) :=
  let cfg1 := if has_section cfg0 "BLACS/plugins" then cfg0
              else add_section cfg0 "BLACS/plugins"
  runDiscovery imp ⟨cfg1, [], []⟩ listing

/-- The entry a plugin's mapping holds for event `name`: `none` when the
plugin raises, returns `None`, or its returned mapping lacks the key. -/
def eventEntryOf (name : String) (p : Plugin) : Option CallbackValue :=
  match p.callbacks with
  | .retMapping m => m.lookup name
  | _ => none

/-! ## Dispatcher lemmas -/

theorem collectCallbacks_cons (name : String) (p : Plugin) (rest : List Plugin) :
    collectCallbacks name (p :: rest) =
      (dispatchStep name p).1 ++ collectCallbacks name rest := rfl

theorem collectWithLog_append (name : String) (l1 l2 : List Plugin) :
    collectWithLog name (l1 ++ l2) =
      ((collectWithLog name l1).1 ++ (collectWithLog name l2).1,
       (collectWithLog name l1).2 ++ (collectWithLog name l2).2) := by
  induction l1 with
  | nil => simp [collectWithLog]
  | cons p rest ih => simp [collectWithLog, ih]

theorem priorityLE_trans (a b c : CallbackValue) :
    priorityLE a b → priorityLE b c → priorityLE a c := by
  simp only [priorityLE, decide_eq_true_eq]
  omega

theorem priorityLE_total (a b : CallbackValue) :
    priorityLE a b || priorityLE b a := by
  simp only [priorityLE, Bool.or_eq_true, decide_eq_true_eq]
  omega

end BlacsPlugins

namespace BlacsPlugins

/-- C1: when the entries accumulated for an event have pairwise distinct
priorities (a missing priority attribute counting as `DEFAULT_PRIORITY`),
the dispatcher returns exactly those entries, in strictly ascending priority
order. -/
theorem get_callbacks_strict_ascending (name : String) (plugins : List Plugin)
    (hdist : (collectCallbacks name plugins).Pairwise
      (fun a b => priorityOf a ≠ priorityOf b)) :
    (get_callbacks name plugins).Perm (collectCallbacks name plugins) ∧
    (get_callbacks name plugins).Pairwise
      (fun a b => priorityOf a < priorityOf b) := by
  have hperm : (get_callbacks name plugins).Perm (collectCallbacks name plugins) :=
    List.mergeSort_perm _ _
  refine ⟨hperm, ?_⟩
  have hsorted := List.sorted_mergeSort priorityLE_trans priorityLE_total
    (collectCallbacks name plugins)
  have hne : (get_callbacks name plugins).Pairwise
      (fun a b => priorityOf a ≠ priorityOf b) :=
    (List.Perm.pairwise_iff (fun h e => h e.symm) hperm).mpr hdist
  refine (hsorted.and hne).imp ?_
  intro a b hab
  have h1 : priorityOf a ≤ priorityOf b := by
    have := hab.1
    simpa [priorityLE] using this
  exact lt_of_le_of_ne h1 hab.2

/-- Closed instance of `get_callbacks_strict_ascending`. -/
theorem get_callbacks_strict_ascending_witness :
    (collectCallbacks "save"
        [⟨"P1", .retMapping [("save", .wrapped 5 0)]⟩,
         ⟨"P2", .retMapping [("save", .wrapped 3 1), ("load", .bare 2)]⟩,
         ⟨"P3", .retMapping [("save", .bare 3)]⟩]).Pairwise
      (fun a b => priorityOf a ≠ priorityOf b) ∧
    ((get_callbacks "save"
        [⟨"P1", .retMapping [("save", .wrapped 5 0)]⟩,
         ⟨"P2", .retMapping [("save", .wrapped 3 1), ("load", .bare 2)]⟩,
         ⟨"P3", .retMapping [("save", .bare 3)]⟩]).Perm
      (collectCallbacks "save"
        [⟨"P1", .retMapping [("save", .wrapped 5 0)]⟩,
         ⟨"P2", .retMapping [("save", .wrapped 3 1), ("load", .bare 2)]⟩,
         ⟨"P3", .retMapping [("save", .bare 3)]⟩]) ∧
     (get_callbacks "save"
        [⟨"P1", .retMapping [("save", .wrapped 5 0)]⟩,
         ⟨"P2", .retMapping [("save", .wrapped 3 1), ("load", .bare 2)]⟩,
         ⟨"P3", .retMapping [("save", .bare 3)]⟩]).Pairwise
      (fun a b => priorityOf a < priorityOf b)) :=
  ⟨by decide, get_callbacks_strict_ascending "save" _ (by decide)⟩

/-- C2: when all entries accumulated for an event share one priority, the
dispatcher returns them exactly in accumulation order, which is the order in
which their plugins were visited (stability of the sort). -/
theorem get_callbacks_stable_when_equal (name : String) (plugins : List Plugin)
    (heq : ∀ a ∈ collectCallbacks name plugins, ∀ b ∈ collectCallbacks name plugins,
      priorityOf a = priorityOf b) :
    get_callbacks name plugins = collectCallbacks name plugins := by
  apply List.mergeSort_of_sorted
  apply List.pairwise_of_forall_mem_list
  intro a ha b hb
  simp only [priorityLE, decide_eq_true_eq]
  exact le_of_eq (heq a ha b hb)

/-- Closed instance of `get_callbacks_stable_when_equal`. -/
theorem get_callbacks_stable_when_equal_witness :
    (∀ a ∈ collectCallbacks "save"
        [⟨"P1", .retMapping [("save", .wrapped 10 0)]⟩,
         ⟨"P2", .retMapping [("save", .bare 1)]⟩,
         ⟨"P3", .retMapping [("save", .wrapped 10 2)]⟩],
      ∀ b ∈ collectCallbacks "save"
        [⟨"P1", .retMapping [("save", .wrapped 10 0)]⟩,
         ⟨"P2", .retMapping [("save", .bare 1)]⟩,
         ⟨"P3", .retMapping [("save", .wrapped 10 2)]⟩],
        priorityOf a = priorityOf b) ∧
    get_callbacks "save"
        [⟨"P1", .retMapping [("save", .wrapped 10 0)]⟩,
         ⟨"P2", .retMapping [("save", .bare 1)]⟩,
         ⟨"P3", .retMapping [("save", .wrapped 10 2)]⟩]
      = collectCallbacks "save"
        [⟨"P1", .retMapping [("save", .wrapped 10 0)]⟩,
         ⟨"P2", .retMapping [("save", .bare 1)]⟩,
         ⟨"P3", .retMapping [("save", .wrapped 10 2)]⟩] :=
  ⟨by decide, get_callbacks_stable_when_equal "save" _ (by decide)⟩

/-- C3: an event name that is a key of no plugin's mapping yields the empty
list, with no error raised. -/
theorem get_callbacks_empty_of_absent (name : String) (plugins : List Plugin)
    (h : ∀ p ∈ plugins, eventEntryOf name p = none) :
    get_callbacks name plugins = [] := by
  have hc : collectCallbacks name plugins = [] := by
    induction plugins with
    | nil => rfl
    | cons p rest ih =>
      have hstep : (dispatchStep name p).1 = [] := by
        have hp := h p (by simp)
        cases hcb : p.callbacks with
        | raises => simp [dispatchStep, hcb]
        | retNone => simp [dispatchStep, hcb]
        | retMapping m =>
          simp only [eventEntryOf, hcb] at hp
          simp [dispatchStep, hcb, hp]
      rw [collectCallbacks_cons, hstep, List.nil_append]
      exact ih (fun q hq => h q (by simp [hq]))
  simp [get_callbacks, hc, List.mergeSort_nil]

/-- Closed instance of `get_callbacks_empty_of_absent`. -/
theorem get_callbacks_empty_of_absent_witness :
    (∀ p ∈ [Plugin.mk "P1" (.retMapping [("save", .wrapped 5 0)]),
            Plugin.mk "P2" .raises, Plugin.mk "P3" .retNone],
        eventEntryOf "close" p = none) ∧
    get_callbacks "close"
        [Plugin.mk "P1" (.retMapping [("save", .wrapped 5 0)]),
         Plugin.mk "P2" .raises, Plugin.mk "P3" .retNone] = [] :=
  ⟨by decide, get_callbacks_empty_of_absent "close" _ (by decide)⟩

/-- C4: a plugin whose `get_callbacks()` raises contributes no callbacks, the
dispatcher's result equals the (correctly ordered) result over the remaining
plugins, and a log message naming the offending plugin is emitted instead of
the exception propagating. -/
theorem get_callbacks_raising_plugin_isolated (name : String)
    (l1 l2 : List Plugin) (p : Plugin)
    (hp : p.callbacks = PluginCallbacks.raises) :
    get_callbacks name (l1 ++ p :: l2) = get_callbacks name (l1 ++ l2) ∧
    ("Error getting callbacks from " ++ p.reprStr ++ ".")
      ∈ (collectWithLog name (l1 ++ p :: l2)).2 := by
  constructor
  · unfold get_callbacks
    have h1 := collectWithLog_append name l1 (p :: l2)
    have h2 := collectWithLog_append name l1 l2
    simp [collectCallbacks, h1, h2, collectWithLog, dispatchStep, hp]
  · have h1 := collectWithLog_append name l1 (p :: l2)
    simp [h1, collectWithLog, dispatchStep, hp]

/-- Closed instance of `get_callbacks_raising_plugin_isolated`. -/
theorem get_callbacks_raising_plugin_isolated_witness :
    (Plugin.mk "P2" .raises).callbacks = PluginCallbacks.raises ∧
    (get_callbacks "save"
        [⟨"P1", .retMapping [("save", .wrapped 5 0)]⟩, Plugin.mk "P2" .raises,
         ⟨"P3", .retMapping [("save", .wrapped 3 1)]⟩]
      = get_callbacks "save"
        [⟨"P1", .retMapping [("save", .wrapped 5 0)]⟩,
         ⟨"P3", .retMapping [("save", .wrapped 3 1)]⟩] ∧
     ("Error getting callbacks from " ++ (Plugin.mk "P2" .raises).reprStr ++ ".")
       ∈ (collectWithLog "save"
           [⟨"P1", .retMapping [("save", .wrapped 5 0)]⟩, Plugin.mk "P2" .raises,
            ⟨"P3", .retMapping [("save", .wrapped 3 1)]⟩]).2) :=
  ⟨rfl, get_callbacks_raising_plugin_isolated "save"
    [⟨"P1", .retMapping [("save", .wrapped 5 0)]⟩]
    [⟨"P3", .retMapping [("save", .wrapped 3 1)]⟩] (Plugin.mk "P2" .raises) rfl⟩

/-- C10: a plugin whose `get_callbacks()` returns `None` contributes nothing
and the dispatcher completes normally with the other plugins' ordered
callbacks. -/
theorem get_callbacks_none_mapping_skipped (name : String)
    (l1 l2 : List Plugin) (p : Plugin)
    (hp : p.callbacks = PluginCallbacks.retNone) :
    get_callbacks name (l1 ++ p :: l2) = get_callbacks name (l1 ++ l2) := by
  unfold get_callbacks
  have h1 := collectWithLog_append name l1 (p :: l2)
  have h2 := collectWithLog_append name l1 l2
  simp [collectCallbacks, h1, h2, collectWithLog, dispatchStep, hp]

/-- Closed instance of `get_callbacks_none_mapping_skipped`. -/
theorem get_callbacks_none_mapping_skipped_witness :
    (Plugin.mk "P2" .retNone).callbacks = PluginCallbacks.retNone ∧
    get_callbacks "save"
        [⟨"P1", .retMapping [("save", .wrapped 5 0)]⟩, Plugin.mk "P2" .retNone,
         ⟨"P3", .retMapping [("save", .wrapped 3 1)]⟩]
      = get_callbacks "save"
        [⟨"P1", .retMapping [("save", .wrapped 5 0)]⟩,
         ⟨"P3", .retMapping [("save", .wrapped 3 1)]⟩] :=
  ⟨rfl, get_callbacks_none_mapping_skipped "save"
    [⟨"P1", .retMapping [("save", .wrapped 5 0)]⟩]
    [⟨"P3", .retMapping [("save", .wrapped 3 1)]⟩] (Plugin.mk "P2" .retNone) rfl⟩

/-! ## Configuration and discovery lemmas -/

theorem lookup_cons_ne {β : Type} {k a : String} (b : β) (l : List (String × β))
    (h : a ≠ k) : ((k, b) :: l).lookup a = l.lookup a := by
  rw [List.lookup_cons]
  simp [beq_eq_false_iff_ne.mpr h]

theorem lookup_setInSection_self (sec : CfgSection) (k v : String) :
    (setInSection sec k v).lookup k = some v := by
  induction sec with
  | nil => simp [setInSection]
  | cons kv rest ih =>
    obtain ⟨k', v'⟩ := kv
    by_cases h : k' = k
    · simp [setInSection, h]
    · rw [setInSection, if_neg h, lookup_cons_ne _ _ (Ne.symm h), ih]

theorem cfgItems_cfgSet_self (cfg : Config) (s k v : String) :
    cfgItems (cfgSet cfg s k v) s = setInSection (cfgItems cfg s) k v := by
  induction cfg with
  | nil => simp [cfgSet, cfgItems, setInSection]
  | cons e rest ih =>
    obtain ⟨s', sec⟩ := e
    by_cases h : s' = s
    · subst h
      simp [cfgSet, cfgItems]
    · rw [cfgSet, if_neg h]
      unfold cfgItems
      rw [lookup_cons_ne _ _ (Ne.symm h), lookup_cons_ne _ _ (Ne.symm h)]
      exact ih

theorem cfgSet_lookup_other (cfg : Config) (s k v t : String) (h : t ≠ s) :
    (cfgSet cfg s k v).lookup t = cfg.lookup t := by
  induction cfg with
  | nil => simp [cfgSet, lookup_cons_ne _ _ h]
  | cons e rest ih =>
    obtain ⟨s', sec⟩ := e
    by_cases hh : s' = s
    · subst hh
      rw [cfgSet, if_pos rfl, lookup_cons_ne _ _ h, lookup_cons_ne _ _ h]
    · by_cases ht : t = s'
      · subst ht
        rw [cfgSet, if_neg hh]
        simp [List.lookup_cons_self]
      · rw [cfgSet, if_neg hh, lookup_cons_ne _ _ ht, lookup_cons_ne _ _ ht, ih]

theorem add_section_lookup_other (cfg : Config) (s t : String) (h : t ≠ s) :
    (add_section cfg s).lookup t = cfg.lookup t := by
  unfold add_section
  rw [List.lookup_append, lookup_cons_ne _ _ h]
  simp

theorem parseBoolStr_pyStr (b : Bool) : parseBoolStr (pyStr b) = some b := by
  cases b <;> decide

theorem contains_of_lookup_eq_some {l : List (String × String)} {k v : String}
    (h : l.lookup k = some v) : (l.map Prod.fst).contains k := by
  induction l with
  | nil => simp at h
  | cons kv rest ih =>
    obtain ⟨k', v'⟩ := kv
    by_cases hk : k = k'
    · simp [hk]
    · rw [lookup_cons_ne _ _ hk] at h
      simp only [List.map_cons, List.contains_cons, ih h, Bool.or_true]

theorem dictInsert_idem {μ : Type} (d : List (String × μ)) (k : String) (v : μ) :
    dictInsert (dictInsert d k v) k v = dictInsert d k v := by
  induction d with
  | nil => simp [dictInsert]
  | cons kv rest ih =>
    obtain ⟨k', v'⟩ := kv
    by_cases h : k' = k
    · simp [dictInsert, h]
    · simp [dictInsert, h, ih]

theorem lookup_dictInsert_self {μ : Type} (d : List (String × μ)) (k : String) (v : μ) :
    (dictInsert d k v).lookup k = some v := by
  induction d with
  | nil => simp [dictInsert]
  | cons kv rest ih =>
    obtain ⟨k', v'⟩ := kv
    by_cases h : k' = k
    · simp [dictInsert, h]
    · rw [dictInsert, if_neg h, lookup_cons_ne _ _ (Ne.symm h), ih]

theorem lookup_dictInsert_ne {μ : Type} (d : List (String × μ)) (k n : String) (v : μ)
    (h : n ≠ k) : (dictInsert d k v).lookup n = d.lookup n := by
  induction d with
  | nil => simp [dictInsert, lookup_cons_ne _ _ h]
  | cons kv rest ih =>
    obtain ⟨k', v'⟩ := kv
    by_cases hk : k' = k
    · subst hk
      rw [dictInsert, if_pos rfl, lookup_cons_ne _ _ h, lookup_cons_ne _ _ h]
    · by_cases hn : n = k'
      · subst hn
        rw [dictInsert, if_neg hk]
        simp [List.lookup_cons_self]
      · rw [dictInsert, if_neg hk, lookup_cons_ne _ _ hn, lookup_cons_ne _ _ hn, ih]

/-- When the candidate is already a key of the section, registration is a
no-op on the store. -/
theorem registeredConfig_of_mem (cfg : Config) (m : String)
    (h : ((cfgItems cfg "BLACS/plugins").map Prod.fst).contains m) :
    registeredConfig cfg m = cfg := by
  unfold registeredConfig
  rw [if_pos h]

/-- When the candidate is new, registration writes the default-enabled
boolean string under its name. -/
theorem registeredConfig_of_not_mem (cfg : Config) (m : String)
    (h : ¬ ((cfgItems cfg "BLACS/plugins").map Prod.fst).contains m) :
    registeredConfig cfg m
      = cfgSet cfg "BLACS/plugins" m (pyStr (default_plugins.contains m)) := by
  unfold registeredConfig
  rw [if_neg h]

/-- After registration the candidate's key is present and parses. -/
theorem getboolean_registeredConfig (cfg : Config) (m : String)
    (h : ¬ ((cfgItems cfg "BLACS/plugins").map Prod.fst).contains m) :
    getboolean (registeredConfig cfg m) "BLACS/plugins" m
      = some (default_plugins.contains m) := by
  rw [registeredConfig_of_not_mem cfg m h]
  unfold getboolean
  rw [cfgItems_cfgSet_self, lookup_setInSection_self]
  simp [parseBoolStr_pyStr]

/-- A key whose stored value parses as a boolean is present in the section. -/
theorem contains_of_getboolean_some {cfg : Config} {s k : String} {b : Bool}
    (h : getboolean cfg s k = some b) :
    ((cfgItems cfg s).map Prod.fst).contains k := by
  unfold getboolean at h
  cases hl : (cfgItems cfg s).lookup k with
  | none => rw [hl] at h; simp at h
  | some v => exact contains_of_lookup_eq_some hl

/-- Registration is a no-op on a store whose section already answers
`getboolean` for the candidate. -/
theorem registeredConfig_getboolean_some {cfg : Config} {m : String} {b : Bool}
    (h : getboolean cfg "BLACS/plugins" m = some b) :
    registeredConfig cfg m = cfg :=
  registeredConfig_of_mem cfg m (contains_of_getboolean_some h)

/-- The stored value a fresh registration leaves under the candidate's name. -/
theorem cfgItems_registeredConfig_new (cfg : Config) (m : String)
    (h : ¬ ((cfgItems cfg "BLACS/plugins").map Prod.fst).contains m) :
    (cfgItems (registeredConfig cfg m) "BLACS/plugins").lookup m
      = some (pyStr (default_plugins.contains m)) := by
  rw [registeredConfig_of_not_mem cfg m h, cfgItems_cfgSet_self,
    lookup_setInSection_self]

/-- Unfolding of the loop body on a candidate that passes the directory
filter. -/
theorem processModule_eq_of_guard {μ : Type} (imp : String → Option μ)
    (st : DiscoveryState μ) (e : DirEntry)
    (hdir : e.isDir = true) (hpc : e.name ≠ "__pycache__") :
    processModule imp st e =
      (match getboolean (registeredConfig st.config e.name) "BLACS/plugins" e.name with
       | none => Except.error e.name
       | some false =>
         Except.ok ⟨registeredConfig st.config e.name, st.modules, st.log⟩
       | some true =>
         match imp e.name with
         | none =>
           Except.ok ⟨registeredConfig st.config e.name, st.modules,
             st.log ++ ["Could not import plugin \x27" ++ e.name ++ "\x27. Skipping."]⟩
         | some m =>
           Except.ok ⟨registeredConfig st.config e.name,
             dictInsert st.modules e.name m, st.log⟩) := by
  have hguard : (e.isDir && e.name != "__pycache__") = true := by
    simp [hdir, hpc]
  unfold processModule
  rw [if_pos hguard]

/-- C7: a newly discovered candidate (a directory other than `__pycache__`)
absent from the `BLACS/plugins` section is written there with
`str(name in default_plugins)` — `"True"` exactly for names in the fixed
default-enabled set — while a candidate already present causes no write at
all; and reprocessing an already processed candidate leaves the store and
the module mapping unchanged, so repeated discovery is idempotent. -/
theorem discovery_registers_new_modules {μ : Type} (imp : String → Option μ)
    (st : DiscoveryState μ) (e : DirEntry)
    (hdir : e.isDir = true) (hpc : e.name ≠ "__pycache__") :
    (¬ ((cfgItems st.config "BLACS/plugins").map Prod.fst).contains e.name →
      ∀ st', processModule imp st e = Except.ok st' →
        (cfgItems st'.config "BLACS/plugins").lookup e.name
          = some (pyStr (default_plugins.contains e.name)))
    ∧ (((cfgItems st.config "BLACS/plugins").map Prod.fst).contains e.name →
      ∀ st', processModule imp st e = Except.ok st' → st'.config = st.config)
    ∧ (∀ st', processModule imp st e = Except.ok st' →
        ∃ st'', processModule imp st' e = Except.ok st'' ∧
          st''.config = st'.config ∧ st''.modules = st'.modules) := by
  have hstep := processModule_eq_of_guard imp st e hdir hpc
  refine ⟨?_, ?_, ?_⟩
  · intro hnot st' hok
    rw [hstep] at hok
    cases hgb : getboolean (registeredConfig st.config e.name) "BLACS/plugins" e.name with
    | none => rw [hgb] at hok; exact absurd hok (by simp)
    | some b =>
      rw [hgb] at hok
      cases b with
      | false =>
        cases hok
        exact cfgItems_registeredConfig_new st.config e.name hnot
      | true =>
        cases himp : imp e.name with
        | none =>
          rw [himp] at hok; cases hok
          exact cfgItems_registeredConfig_new st.config e.name hnot
        | some m =>
          rw [himp] at hok; cases hok
          exact cfgItems_registeredConfig_new st.config e.name hnot
  · intro hmem st' hok
    rw [hstep, registeredConfig_of_mem st.config e.name hmem] at hok
    cases hgb : getboolean st.config "BLACS/plugins" e.name with
    | none => rw [hgb] at hok; exact absurd hok (by simp)
    | some b =>
      rw [hgb] at hok
      cases b with
      | false => cases hok; rfl
      | true =>
        cases himp : imp e.name with
        | none => rw [himp] at hok; cases hok; rfl
        | some m => rw [himp] at hok; cases hok; rfl
  · intro st' hok
    rw [hstep] at hok
    cases hgb : getboolean (registeredConfig st.config e.name) "BLACS/plugins" e.name with
    | none => rw [hgb] at hok; exact absurd hok (by simp)
    | some b =>
      rw [hgb] at hok
      have hre : registeredConfig (registeredConfig st.config e.name) e.name
          = registeredConfig st.config e.name :=
        registeredConfig_getboolean_some hgb
      cases b with
      | false =>
        cases hok
        refine ⟨⟨registeredConfig st.config e.name, st.modules, st.log⟩, ?_, rfl, rfl⟩
        rw [processModule_eq_of_guard imp _ e hdir hpc]
        simp only [hre, hgb]
      | true =>
        cases himp : imp e.name with
        | none =>
          rw [himp] at hok; cases hok
          refine ⟨⟨registeredConfig st.config e.name, st.modules,
            (st.log ++ ["Could not import plugin \x27" ++ e.name ++ "\x27. Skipping."])
              ++ ["Could not import plugin \x27" ++ e.name ++ "\x27. Skipping."]⟩,
            ?_, rfl, rfl⟩
          rw [processModule_eq_of_guard imp _ e hdir hpc]
          simp only [hre, hgb, himp]
        | some m =>
          rw [himp] at hok; cases hok
          refine ⟨⟨registeredConfig st.config e.name,
            dictInsert (dictInsert st.modules e.name m) e.name m, st.log⟩,
            ?_, rfl, dictInsert_idem _ _ _⟩
          rw [processModule_eq_of_guard imp _ e hdir hpc]
          simp only [hre, hgb, himp]

/-- Closed instance of `discovery_registers_new_modules`. -/
theorem discovery_registers_new_modules_witness :
    (DirEntry.mk "general" true).isDir = true ∧
    (DirEntry.mk "general" true).name ≠ "__pycache__" ∧
    (¬ ((cfgItems (⟨[("BLACS/plugins", [])], [], []⟩ : DiscoveryState Nat).config
          "BLACS/plugins").map Prod.fst).contains "general") ∧
    (processModule (fun _ => some 0)
        (⟨[("BLACS/plugins", [])], [], []⟩ : DiscoveryState Nat)
        (DirEntry.mk "general" true)
      = Except.ok ⟨[("BLACS/plugins", [("general", "True")])], [("general", 0)], []⟩) ∧
    ((cfgItems (⟨[("BLACS/plugins", [("general", "True")])], [("general", 0)], []⟩
        : DiscoveryState Nat).config "BLACS/plugins").lookup "general"
      = some (pyStr (default_plugins.contains "general"))) ∧
    (∃ st'', processModule (fun _ => some 0)
        (⟨[("BLACS/plugins", [("general", "True")])], [("general", 0)], []⟩
          : DiscoveryState Nat)
        (DirEntry.mk "general" true) = Except.ok st'' ∧
      st''.config = [("BLACS/plugins", [("general", "True")])] ∧
      st''.modules = [("general", 0)]) := by
  refine ⟨rfl, by decide, by decide, by rfl, ?_, ?_⟩
  · exact (discovery_registers_new_modules (fun _ => some 0)
      (⟨[("BLACS/plugins", [])], [], []⟩ : DiscoveryState Nat)
      (DirEntry.mk "general" true) rfl (by decide)).1 (by decide) _ (by rfl)
  · exact (discovery_registers_new_modules (fun _ => some 0)
      (⟨[("BLACS/plugins", [])], [], []⟩ : DiscoveryState Nat)
      (DirEntry.mk "general" true) rfl (by decide)).2.2 _ (by rfl)

/-- One loop step under two import environments that agree away from `f`
preserves: equal stores, and module dicts that agree away from `f`; and both
runs fail identically. -/
theorem processModule_agrees {μ : Type} (imp imp' : String → Option μ) (f : String)
    (himp : ∀ n, n ≠ f → imp n = imp' n)
    (st st' : DiscoveryState μ)
    (hcfg : st.config = st'.config)
    (hmod : ∀ n, n ≠ f → st.modules.lookup n = st'.modules.lookup n)
    (e : DirEntry) :
    (∀ msg, processModule imp st e = Except.error msg →
       processModule imp' st' e = Except.error msg)
    ∧ (∀ t, processModule imp st e = Except.ok t →
       ∃ t', processModule imp' st' e = Except.ok t' ∧ t.config = t'.config ∧
         ∀ n, n ≠ f → t.modules.lookup n = t'.modules.lookup n) := by
  cases hg : (e.isDir && e.name != "__pycache__") with
  | false =>
    constructor
    · intro msg h
      rw [processModule, if_neg (by simp [hg])] at h
      exact absurd h (by simp)
    · intro t h
      rw [processModule, if_neg (by simp [hg])] at h
      cases h
      exact ⟨st', by rw [processModule, if_neg (by simp [hg])], hcfg, hmod⟩
  | true =>
    have hdir : e.isDir = true := by
      cases hid : e.isDir
      · rw [hid] at hg; simp at hg
      · rfl
    have hpc : e.name ≠ "__pycache__" := by
      intro hq
      rw [hq] at hg; simp at hg
    have h1 := processModule_eq_of_guard imp st e hdir hpc
    have h2 := processModule_eq_of_guard imp' st' e hdir hpc
    rw [hcfg] at h1
    constructor
    · intro msg h
      rw [h1] at h
      rw [h2]
      cases hgb : getboolean (registeredConfig st'.config e.name) "BLACS/plugins" e.name with
      | none => rw [hgb] at h; exact h
      | some b =>
        rw [hgb] at h
        cases b with
        | false => exact absurd h (by simp)
        | true =>
          cases himpv : imp e.name <;> rw [himpv] at h <;> exact absurd h (by simp)
    · intro t h
      rw [h1] at h
      rw [h2]
      cases hgb : getboolean (registeredConfig st'.config e.name) "BLACS/plugins" e.name with
      | none => rw [hgb] at h; exact absurd h (by simp)
      | some b =>
        rw [hgb] at h
        cases b with
        | false =>
          cases h
          exact ⟨⟨registeredConfig st'.config e.name, st'.modules, st'.log⟩, rfl, rfl, hmod⟩
        | true =>
          by_cases hef : e.name = f
          · cases himpv : imp e.name <;> rw [himpv] at h <;> cases h <;>
              cases himpv' : imp' e.name
            · exact ⟨_, rfl, rfl, hmod⟩
            · refine ⟨_, rfl, rfl, ?_⟩
              intro n hn
              rw [lookup_dictInsert_ne _ _ _ _ (hef ▸ hn)]
              exact hmod n hn
            · refine ⟨_, rfl, rfl, ?_⟩
              intro n hn
              rw [lookup_dictInsert_ne _ _ _ _ (hef ▸ hn)]
              exact hmod n hn
            · refine ⟨_, rfl, rfl, ?_⟩
              intro n hn
              rw [lookup_dictInsert_ne _ _ _ _ (hef ▸ hn),
                lookup_dictInsert_ne _ _ _ _ (hef ▸ hn)]
              exact hmod n hn
          · have hsame : imp' e.name = imp e.name := (himp e.name hef).symm
            rw [hsame]
            cases himpv : imp e.name <;> rw [himpv] at h <;> cases h
            · exact ⟨_, rfl, rfl, hmod⟩
            · refine ⟨_, rfl, rfl, ?_⟩
              intro n hn
              by_cases hne : n = e.name
              · subst hne
                rw [lookup_dictInsert_self, lookup_dictInsert_self]
              · rw [lookup_dictInsert_ne _ _ _ _ hne, lookup_dictInsert_ne _ _ _ _ hne]
                exact hmod n hn

/-- The whole loop under two import environments that agree away from `f`:
final module dicts agree away from `f`, and both runs fail identically. -/
theorem runDiscovery_agrees {μ : Type} (imp imp' : String → Option μ) (f : String)
    (himp : ∀ n, n ≠ f → imp n = imp' n) :
    ∀ (listing : List DirEntry) (st st' : DiscoveryState μ),
      st.config = st'.config →
      (∀ n, n ≠ f → st.modules.lookup n = st'.modules.lookup n) →
      (∀ t, runDiscovery imp st listing = Except.ok t →
        ∃ t', runDiscovery imp' st' listing = Except.ok t' ∧
          t.config = t'.config ∧
          ∀ n, n ≠ f → t.modules.lookup n = t'.modules.lookup n) := by
  intro listing
  induction listing with
  | nil =>
    intro st st' hcfg hmod t h
    rw [runDiscovery] at h
    cases h
    exact ⟨st', rfl, hcfg, hmod⟩
  | cons e rest ih =>
    intro st st' hcfg hmod t h
    rw [runDiscovery] at h
    cases hs : processModule imp st e with
    | error msg => rw [hs] at h; exact absurd h (by simp)
    | ok t0 =>
      rw [hs] at h
      obtain ⟨t0', hs', hcfg0, hmod0⟩ :=
        (processModule_agrees imp imp' f himp st st' hcfg hmod e).2 t0 hs
      obtain ⟨t', ht', hcfgt, hmodt⟩ := ih t0 t0' hcfg0 hmod0 t h
      refine ⟨t', ?_, hcfgt, hmodt⟩
      rw [runDiscovery, hs']
      exact ht'

/-- C8: an enabled candidate (persisted boolean true) whose import succeeds
is recorded in the result mapping under its module name; an enabled candidate
whose import fails is skipped without aborting the loop, contributes no
entry, and has a message naming it sent to the logger; a disabled candidate (persisted boolean false) is never imported; and
the fate of every other module is independent of one module's import
failing, so a failing plugin never prevents the others from loading. -/
theorem import_policy (μ : Type) :
    (∀ (imp : String → Option μ) (st : DiscoveryState μ) (e : DirEntry) (m : μ),
      e.isDir = true → e.name ≠ "__pycache__" →
      getboolean (registeredConfig st.config e.name) "BLACS/plugins" e.name = some true →
      imp e.name = some m →
      ∃ st', processModule imp st e = Except.ok st' ∧
        st'.modules.lookup e.name = some m)
    ∧ (∀ (imp : String → Option μ) (st : DiscoveryState μ) (e : DirEntry),
      e.isDir = true → e.name ≠ "__pycache__" →
      getboolean (registeredConfig st.config e.name) "BLACS/plugins" e.name = some true →
      imp e.name = none →
      processModule imp st e
        = Except.ok ⟨registeredConfig st.config e.name, st.modules,
            st.log ++ ["Could not import plugin \x27" ++ e.name ++ "\x27. Skipping."]⟩)
    ∧ (∀ (imp : String → Option μ) (st : DiscoveryState μ) (e : DirEntry),
      e.isDir = true → e.name ≠ "__pycache__" →
      getboolean (registeredConfig st.config e.name) "BLACS/plugins" e.name = some false →
      processModule imp st e
        = Except.ok ⟨registeredConfig st.config e.name, st.modules, st.log⟩)
    ∧ (∀ (imp imp' : String → Option μ) (f : String),
      (∀ n, n ≠ f → imp n = imp' n) →
      ∀ (cfg0 : Config) (listing : List DirEntry) (t : DiscoveryState μ),
        loadPlugins imp cfg0 listing = Except.ok t →
        ∃ t', loadPlugins imp' cfg0 listing = Except.ok t' ∧
          ∀ n, n ≠ f → t.modules.lookup n = t'.modules.lookup n) := by
  refine ⟨?_, ?_, ?_, ?_⟩
  · intro imp st e m hdir hpc hgb himp
    refine ⟨⟨registeredConfig st.config e.name, dictInsert st.modules e.name m,
      st.log⟩, ?_, ?_⟩
    · rw [processModule_eq_of_guard imp st e hdir hpc, hgb, himp]
    · exact lookup_dictInsert_self _ _ _
  · intro imp st e hdir hpc hgb himp
    rw [processModule_eq_of_guard imp st e hdir hpc, hgb, himp]
  · intro imp st e hdir hpc hgb
    rw [processModule_eq_of_guard imp st e hdir hpc, hgb]
  · intro imp imp' f himp cfg0 listing t hok
    unfold loadPlugins at hok ⊢
    obtain ⟨t', ht', _, hmodt⟩ :=
      runDiscovery_agrees imp imp' f himp listing _ _ rfl (fun _ _ => rfl) t hok
    exact ⟨t', ht', hmodt⟩

/-- Closed instance of `import_policy`. -/
theorem import_policy_witness :
    ((DirEntry.mk "general" true).isDir = true ∧
     (DirEntry.mk "general" true).name ≠ "__pycache__" ∧
     getboolean (registeredConfig
         (⟨[("BLACS/plugins", [("general", "True")])], [], []⟩
           : DiscoveryState Nat).config
         "general") "BLACS/plugins" "general" = some true ∧
     (fun (_ : String) => some (0 : Nat)) "general" = some 0 ∧
     ∃ st', processModule (fun _ => some (0 : Nat))
         (⟨[("BLACS/plugins", [("general", "True")])], [], []⟩ : DiscoveryState Nat)
         (DirEntry.mk "general" true) = Except.ok st' ∧
       st'.modules.lookup "general" = some 0) ∧
    (processModule (fun (_ : String) => (none : Option Nat))
        (⟨[("BLACS/plugins", [("general", "True")])], [], []⟩ : DiscoveryState Nat)
        (DirEntry.mk "general" true)
      = Except.ok ⟨registeredConfig [("BLACS/plugins", [("general", "True")])] "general",
          [], ["Could not import plugin \x27general\x27. Skipping."]⟩) ∧
    (processModule (fun (_ : String) => some (0 : Nat))
        (⟨[("BLACS/plugins", [("experimental", "False")])], [], []⟩ : DiscoveryState Nat)
        (DirEntry.mk "experimental" true)
      = Except.ok ⟨registeredConfig [("BLACS/plugins", [("experimental", "False")])]
          "experimental", [], []⟩) ∧
    (∃ t', loadPlugins (fun n => if n = "general" then none else some (0 : Nat)) []
          [DirEntry.mk "general" true, DirEntry.mk "theme" true]
        = Except.ok t' ∧
      ∀ n, n ≠ "general" →
        ((⟨[("BLACS/plugins", [("general", "True"), ("theme", "True")])],
            [("general", 0), ("theme", 0)], []⟩ : DiscoveryState Nat)).modules.lookup n
          = t'.modules.lookup n) := by
  refine ⟨⟨rfl, by decide, by decide, rfl, ?_⟩, ?_, ?_, ?_⟩
  · exact (import_policy Nat).1 (fun _ => some 0)
      (⟨[("BLACS/plugins", [("general", "True")])], [], []⟩ : DiscoveryState Nat)
      (DirEntry.mk "general" true) 0 rfl (by decide) (by decide) rfl
  · exact (import_policy Nat).2.1 (fun _ => none)
      (⟨[("BLACS/plugins", [("general", "True")])], [], []⟩ : DiscoveryState Nat)
      (DirEntry.mk "general" true) rfl (by decide) (by decide) rfl
  · exact (import_policy Nat).2.2.1 (fun _ => some 0)
      (⟨[("BLACS/plugins", [("experimental", "False")])], [], []⟩ : DiscoveryState Nat)
      (DirEntry.mk "experimental" true) rfl (by decide) (by decide)
  · exact (import_policy Nat).2.2.2 (fun _ => some 0)
      (fun n => if n = "general" then none else some 0) "general"
      (fun n hn => by simp [hn]) []
      [DirEntry.mk "general" true, DirEntry.mk "theme" true]
      (⟨[("BLACS/plugins", [("general", "True"), ("theme", "True")])],
        [("general", 0), ("theme", 0)], []⟩ : DiscoveryState Nat) (by rfl)

/-- One loop step never changes any section other than `BLACS/plugins`. -/
theorem processModule_frame {μ : Type} (imp : String → Option μ)
    (st t : DiscoveryState μ) (e : DirEntry) (s : String)
    (hs : s ≠ "BLACS/plugins")
    (h : processModule imp st e = Except.ok t) :
    t.config.lookup s = st.config.lookup s := by
  have hreg : (registeredConfig st.config e.name).lookup s = st.config.lookup s := by
    unfold registeredConfig
    split
    · rfl
    · exact cfgSet_lookup_other _ _ _ _ _ hs
  cases hg : (e.isDir && e.name != "__pycache__") with
  | false =>
    rw [processModule, if_neg (by simp [hg])] at h
    cases h; rfl
  | true =>
    have hdir : e.isDir = true := by
      cases hid : e.isDir
      · rw [hid] at hg; simp at hg
      · rfl
    have hpc : e.name ≠ "__pycache__" := by
      intro hq; rw [hq] at hg; simp at hg
    rw [processModule_eq_of_guard imp st e hdir hpc] at h
    cases hgb : getboolean (registeredConfig st.config e.name) "BLACS/plugins" e.name with
    | none => rw [hgb] at h; exact absurd h (by simp)
    | some b =>
      rw [hgb] at h
      cases b with
      | false => cases h; exact hreg
      | true =>
        cases himp : imp e.name <;> rw [himp] at h <;> cases h <;> exact hreg

/-- The whole loop never changes any section other than `BLACS/plugins`. -/
theorem runDiscovery_frame {μ : Type} (imp : String → Option μ) (s : String)
    (hs : s ≠ "BLACS/plugins") :
    ∀ (listing : List DirEntry) (st t : DiscoveryState μ),
      runDiscovery imp st listing = Except.ok t →
      t.config.lookup s = st.config.lookup s := by
  intro listing
  induction listing with
  | nil =>
    intro st t h
    rw [runDiscovery] at h
    cases h; rfl
  | cons e rest ih =>
    intro st t h
    rw [runDiscovery] at h
    cases hsp : processModule imp st e with
    | error msg => rw [hsp] at h; exact absurd h (by simp)
    | ok t0 =>
      rw [hsp] at h
      rw [ih t0 t h, processModule_frame imp st t0 e s hs hsp]

/-- C9: a completed discovery pass leaves every section of the store other
than `BLACS/plugins` exactly as it found it; the store is touched nowhere
else in the subsystem (the dispatcher takes no reference to it). -/
theorem config_frame_other_sections {μ : Type} (imp : String → Option μ)
    (cfg0 : Config) (listing : List DirEntry) (t : DiscoveryState μ)
    (hok : loadPlugins imp cfg0 listing = Except.ok t)
    (s : String) (hs : s ≠ "BLACS/plugins") :
    t.config.lookup s = cfg0.lookup s := by
  unfold loadPlugins at hok
  rw [runDiscovery_frame imp s hs listing _ t hok]
  show (if has_section cfg0 "BLACS/plugins" then cfg0
        else add_section cfg0 "BLACS/plugins").lookup s = cfg0.lookup s
  split
  · rfl
  · exact add_section_lookup_other cfg0 _ s hs

/-- Closed instance of `config_frame_other_sections`. -/
theorem config_frame_other_sections_witness :
    (loadPlugins (fun _ => some (0 : Nat))
        [("other", [("k", "v")]), ("BLACS/plugins", [])]
        [DirEntry.mk "general" true]
      = Except.ok ⟨[("other", [("k", "v")]),
          ("BLACS/plugins", [("general", "True")])], [("general", 0)], []⟩) ∧
    "other" ≠ "BLACS/plugins" ∧
    ((⟨[("other", [("k", "v")]), ("BLACS/plugins", [("general", "True")])],
        [("general", 0)], []⟩ : DiscoveryState Nat)).config.lookup "other"
      = ([("other", [("k", "v")]), ("BLACS/plugins", [])] : Config).lookup "other" :=
  ⟨by rfl, by decide,
    config_frame_other_sections (fun _ => some 0)
      [("other", [("k", "v")]), ("BLACS/plugins", [])] [DirEntry.mk "general" true]
      ⟨[("other", [("k", "v")]), ("BLACS/plugins", [("general", "True")])],
        [("general", 0)], []⟩ (by rfl) "other" (by decide)⟩

/-- C5: accessing a `Callback` through an instance binds it like an ordinary
method: the returned bound callable passes the owning instance as the wrapped
callable's first argument, exactly as Python's method binding does. -/
theorem callback_binds_like_method {ι α β : Type} (cb : Callback (ι × α) β)
    (inst : ι) (a : α) :
    cb.dunderGet (some inst) = BoundResult.bound (MethodType cb.dunderCall inst) ∧
    MethodType cb.dunderCall inst a = cb.func (inst, a) ∧
    MethodType cb.dunderCall inst a = ordinaryMethodBind cb.func inst a :=
  ⟨rfl, rfl, rfl⟩

/-- C6: calling a `Callback` forwards the arguments and return value of the
wrapped callable unchanged; the stored priority is the constructor argument,
or `DEFAULT_PRIORITY = 10` when none is supplied. -/
theorem callback_call_forwards {α β : Type} (f : α → β) (p : Int) (a : α) :
    (Callback.mk p f).dunderCall a = f a ∧
    (Callback.mk p f).priority = p ∧
    (Callback.ofCallable f).dunderCall a = f a ∧
    (Callback.ofCallable f).priority = DEFAULT_PRIORITY :=
  ⟨rfl, rfl, rfl, rfl⟩

end BlacsPlugins
